import Mathlib

/-!
Shallow embedding of the per guild music queue and voice playback logic of
the play command module of the strive-2 repository.

State: an in memory map from guild id to a queue record with fields songs,
player and connection, mirroring the object literal created in execute.
Player handles are identified by the value of a fresh counter, so that
creation and reuse of player instances is observable. Each external action
of the code (deferring the reply, editing it, creating a player, joining a
voice channel, registering the lifecycle handlers, playing a resource,
subscribing the connection, destroying the connection) is recorded as an
Effect. Outcomes of the asynchronous collaborators (reply delivery, URL
validation, metadata resolution, joining a channel, opening the stream)
are inputs supplied in an Env record. Events are processed atomically,
matching the single threaded cooperative model of the code; idle and error
signals are dispatched to the current map entry of the guild, which is the
entry whose player registered the handlers in every reachable state.
-/

namespace Strive

/-- A resolved song, from ytdl.getInfo: videoDetails.title and
videoDetails.video_url. -/
structure Song where
  title : String
  url : String
deriving DecidableEq

/-- A live voice connection handle; channelId records
joinConfig.channelId, the channel the connection was established to. -/
structure Connection where
  channelId : String
deriving DecidableEq

/-- The per guild queue object literal: songs, player (identified by a
numeric handle), connection. -/
structure GuildQueue where
  songs : List Song
  player : Nat
  connection : Option Connection
deriving DecidableEq

/-- The module level queues map plus a counter providing fresh player
handle identities. -/
structure BotState where
  queues : String → Option GuildQueue
  nextPlayer : Nat

/-- The initial state: an empty map. -/
def S0 : BotState := { queues := fun _ => none, nextPlayer := 0 }

/-- Map update, modelling queues.set (with some value) and queues.delete
(with none). -/
def mapSet (m : String → Option GuildQueue) (k : String) (v : Option GuildQueue) :
    String → Option GuildQueue :=
  fun k2 => if k2 = k then v else m k2

/-- The inputs of one invocation of the play command. -/
structure PlayRequest where
  inGuild : Bool
  guildId : String
  channelProvided : Bool
  channelIsVoice : Bool
  hasConnectPerm : Bool
  hasSpeakPerm : Bool
  channelId : String
  query : String
deriving DecidableEq

/-- Outcomes of the external collaborators during one event: whether the
defer succeeds, whether ytdl.validateURL accepts the query, the result of
ytdl.getInfo, whether joinVoiceChannel succeeds, whether reply edits and
follow ups are delivered, and whether opening the stream succeeds. -/
structure Env where
  deferOk : Bool
  validURL : Bool
  resolved : Option Song
  connectOk : Bool
  editOk : Bool
  followOk : Bool
  streamOk : Bool
deriving DecidableEq

/-- The user visible outcome of one invocation of execute. -/
inductive PlayResult where
  | notInGuild
  | invalidChannel
  | noPermission
  | deferFailed
  | invalidURL
  | resolutionFailed
  | connectionFailed
  | nowPlaying
  | addedToQueue
deriving DecidableEq

/-- External actions performed by the code, in program order. -/
inductive Effect where
  | reply (msg : String)
  | defer
  | logError
  | edited (msg : String)
  | followUp (msg : String)
  | createPlayer (pid : Nat)
  | connectAttempt (guildId channelId : String)
  | connected (guildId channelId : String)
  | registerHandlers (guildId : String) (pid : Nat)
  | play (pid : Nat) (url : String)
  | subscribe (channelId : String) (pid : Nat)
  | notifyNowPlaying (title channelId : String)
  | destroyConn (guildId channelId : String)
deriving DecidableEq

/-- A failed delivery of a caught reply edit or follow up is logged. -/
def logIf (ok : Bool) : List Effect := if ok then [] else [.logError]

def Effect.isConnectAttempt : Effect → Bool
  | .connectAttempt _ _ => true
  | _ => false

def Effect.isConnected : Effect → Bool
  | .connected _ _ => true
  | _ => false

def Effect.isRegister : Effect → Bool
  | .registerHandlers _ _ => true
  | _ => false

def Effect.isCreatePlayer : Effect → Bool
  | .createPlayer _ => true
  | _ => false

/-- playSong: reads the head of songs, opens the stream, plays it on the
player of the queue, subscribes the connection to the player, and edits
the reply with the track title and the channel id of the connection
actually in use (joinConfig.channelId). Any failure inside is caught and
reported with a follow up message, leaving the queue untouched. With no
connection present the subscribe call throws after play already ran. -/
def playSong (env : Env) (q : GuildQueue) : List Effect :=
  match q.songs.head? with
  | none => [.followUp "play-failed"] ++ logIf env.followOk
  | some song =>
    if env.streamOk then
      match q.connection with
      | some c =>
        [.play q.player song.url, .subscribe c.channelId q.player,
         .notifyNowPlaying song.title c.channelId] ++ logIf env.editOk
      | none => [.play q.player song.url, .followUp "play-failed"] ++ logIf env.followOk
    else [.followUp "play-failed"] ++ logIf env.followOk

/-- Queue initialization block of execute: fetch the existing queue for
the guild or create and register an empty one. The object literal creates
the player handle immediately, together with the empty songs list and a
null connection. Returns the queue, the updated state and the effects. -/
def getOrCreate (g : String) (S : BotState) : GuildQueue × BotState × List Effect :=
  match S.queues g with
  | some q => (q, S, [])
  | none =>
    let q : GuildQueue := { songs := [], player := S.nextPlayer, connection := none }
    (q, { queues := mapSet S.queues g (some q), nextPlayer := S.nextPlayer + 1 },
     [.createPlayer S.nextPlayer])

/-- execute: guard checks (guild only, voice channel option, Connect and
Speak permissions), defer (aborting on failure), URL validation, metadata
resolution, queue fetch or creation, append of the resolved song, joining
the voice channel when no connection exists (on failure: delete the map
entry and report), handler registration after a successful join, and
finally either immediate playback when the appended song is the only one
or an added to queue notification. -/
def execute (req : PlayRequest) (env : Env) (S : BotState) :
    BotState × PlayResult × List Effect :=
  if !req.inGuild then
    (S, .notInGuild, [.reply "server-only"])
  else if !(req.channelProvided && req.channelIsVoice) then
    (S, .invalidChannel, [.reply "select-valid-voice-channel"])
  else if !(req.hasConnectPerm && req.hasSpeakPerm) then
    (S, .noPermission, [.reply "missing-permissions"])
  else if !env.deferOk then
    (S, .deferFailed, [.logError])
  else if !env.validURL then
    (S, .invalidURL, [.defer, .edited "invalid-url"])
  else
    match env.resolved with
    | none => (S, .resolutionFailed, [.defer, .edited "failed-to-play"] ++ logIf env.editOk)
    | some song =>
      let r := getOrCreate req.guildId S
      let q1 : GuildQueue := { r.1 with songs := r.1.songs ++ [song] }
      let S2 : BotState := { r.2.1 with queues := mapSet r.2.1.queues req.guildId (some q1) }
      let eff0 : List Effect := [.defer] ++ r.2.2
      match q1.connection with
      | none =>
        if env.connectOk then
          let q2 : GuildQueue := { q1 with connection := some { channelId := req.channelId } }
          let S3 : BotState := { S2 with queues := mapSet S2.queues req.guildId (some q2) }
          let eff1 := eff0 ++ [.connectAttempt req.guildId req.channelId,
            .connected req.guildId req.channelId, .registerHandlers req.guildId q2.player]
          if q2.songs.length = 1 then
            (S3, .nowPlaying, eff1 ++ playSong env q2)
          else
            (S3, .addedToQueue, eff1 ++ [.edited "added-to-queue"] ++ logIf env.editOk)
        else
          ({ S2 with queues := mapSet S2.queues req.guildId none }, .connectionFailed,
           eff0 ++ [.connectAttempt req.guildId req.channelId, .edited "join-failed"])
      | some _ =>
        if q1.songs.length = 1 then
          (S2, .nowPlaying, eff0 ++ playSong env q1)
        else
          (S2, .addedToQueue, eff0 ++ [.edited "added-to-queue"] ++ logIf env.editOk)

/-- The idle handler: shift the head of songs, then either play the next
song or destroy the connection and delete the map entry. With no
connection present the destroy call throws and the deletion is not
reached, leaving the shifted entry in the map. -/
def onIdle (env : Env) (g : String) (S : BotState) : BotState × List Effect :=
  match S.queues g with
  | none => (S, [])
  | some q =>
    let q1 : GuildQueue := { q with songs := q.songs.tail }
    if q1.songs.length > 0 then
      ({ S with queues := mapSet S.queues g (some q1) }, playSong env q1)
    else
      match q1.connection with
      | some c => ({ S with queues := mapSet S.queues g none }, [.destroyConn g c.channelId])
      | none => ({ S with queues := mapSet S.queues g (some q1) }, [])

/-- The error handler: best effort follow up, clear the songs entirely,
destroy the connection, delete the map entry. With no connection present
the destroy call throws after the songs were cleared, and the deletion is
not reached. -/
def onError (env : Env) (g : String) (S : BotState) : BotState × List Effect :=
  match S.queues g with
  | none => (S, [])
  | some q =>
    let q1 : GuildQueue := { q with songs := [] }
    match q1.connection with
    | some c =>
      ({ S with queues := mapSet S.queues g none },
       [.followUp "audio-error"] ++ logIf env.followOk ++ [.destroyConn g c.channelId])
    | none =>
      ({ S with queues := mapSet S.queues g (some q1) },
       [.followUp "audio-error"] ++ logIf env.followOk)

/-- The discrete external events driving the state machine. -/
inductive Event where
  | playCmd (req : PlayRequest) (env : Env)
  | idle (g : String) (env : Env)
  | playerError (g : String) (env : Env)

/-- The guild an event concerns. -/
def eventGuild : Event → String
  | .playCmd req _ => req.guildId
  | .idle g _ => g
  | .playerError g _ => g

/-- One atomic step of the system. -/
def step : Event → BotState → BotState × List Effect
  | .playCmd req env, S => ((execute req env S).1, (execute req env S).2.2)
  | .idle g env, S => onIdle env g S
  | .playerError g env, S => onError env g S

/-- States reachable from the empty initial state by any event sequence. -/
inductive Reachable : BotState → Prop where
  | base : Reachable S0
  | next (e : Event) {S : BotState} : Reachable S → Reachable (step e S).1

/-- A fully valid play request for guild g naming channel ch. -/
def mkReq (g ch : String) : PlayRequest :=
  { inGuild := true, guildId := g, channelProvided := true, channelIsVoice := true,
    hasConnectPerm := true, hasSpeakPerm := true, channelId := ch, query := "url" }

/-- An environment in which every external operation succeeds and the
query resolves to s. -/
def okEnv (s : Song) : Env :=
  { deferOk := true, validURL := true, resolved := some s, connectOk := true,
    editOk := true, followOk := true, streamOk := true }

/-- An all successful environment for idle events. -/
def idleEnv : Env :=
  { deferOk := true, validURL := true, resolved := none, connectOk := true,
    editOk := true, followOk := true, streamOk := true }

/-- Single guild events: a successful enqueue of a song, or an idle
signal, on the fixed guild g with the fixed channel ch. -/
inductive GEvent where
  | enq (s : Song)
  | idle
deriving DecidableEq

/-- The step of a single guild event. -/
def gstep : GEvent → BotState → BotState × List Effect
  | .enq s, S => step (.playCmd (mkReq "g" "ch") (okEnv s)) S
  | .idle, S => step (.idle "g" idleEnv) S

/-- Run a list of single guild events, accumulating the effects. -/
def runG : BotState → List GEvent → BotState × List Effect
  | S, [] => (S, [])
  | S, e :: t =>
    ((runG (gstep e S).1 t).1, (gstep e S).2 ++ (runG (gstep e S).1 t).2)

/-- A history is admissible when every idle signal fires while the guild
has a live entry, that is while a song is actually playing. -/
def admissibleFrom : BotState → List GEvent → Bool
  | _, [] => true
  | S, .enq s :: t => admissibleFrom (gstep (.enq s) S).1 t
  | S, .idle :: t => ((S.queues "g").isSome) && admissibleFrom (gstep .idle S).1 t

/-- The songs enqueued by a history, in arrival order. -/
def arrivals (h : List GEvent) : List Song :=
  h.filterMap fun e => match e with | .enq s => some s | .idle => none

/-- The number of idle signals in a history. -/
def idles (h : List GEvent) : Nat :=
  h.countP fun e => match e with | .idle => true | _ => false

/-- The urls handed to the player, in order. -/
def playUrls (l : List Effect) : List String :=
  l.filterMap fun e => match e with | .play _ u => some u | _ => none

/-- The state invariant: every live entry has a connection, a nonempty
song list, and a player handle allocated below the fresh counter. -/
def Inv (S : BotState) : Prop :=
  ∀ g q, S.queues g = some q →
    q.connection.isSome = true ∧ q.songs ≠ [] ∧ q.player < S.nextPlayer

/-- A sample song. -/
def songA : Song := { title := "A", url := "uA" }

/-- Another sample song. -/
def songB : Song := { title := "B", url := "uB" }

/-- A concrete two song history: enqueue songA, enqueue songB, then the
two idle signals that finish them. -/
def histAB : List GEvent := [GEvent.enq songA, GEvent.enq songB, GEvent.idle, GEvent.idle]

/-- The state after one successful enqueue of songA on guild g. -/
def SA : BotState := (step (.playCmd (mkReq "g" "ch") (okEnv songA)) S0).1

/-- The state after enqueueing songA and then songB on guild g. -/
def SAB : BotState := (step (.playCmd (mkReq "g" "ch") (okEnv songB)) SA).1

/-- An environment whose voice channel join fails. -/
def envNoConnect : Env := { okEnv songA with connectOk := false }

/-- An environment whose URL validation rejects the query. -/
def envBadURL : Env := { okEnv songA with validURL := false }

/-- An environment whose reply deferral fails. -/
def envNoDefer : Env := { okEnv songA with deferOk := false }

/-- An environment in which every reply edit and follow up delivery
fails, but everything else succeeds. -/
def envNoNotify : Env := { okEnv songA with editOk := false, followOk := false }

/-- A request made outside any guild. -/
def badReq : PlayRequest := { mkReq "g" "ch" with inGuild := false }

theorem mapSet_self (m : String → Option GuildQueue) (k : String) (v : Option GuildQueue) :
    mapSet m k v k = v := by
  simp [mapSet]

theorem mapSet_other (m : String → Option GuildQueue) (k : String) (v : Option GuildQueue)
    (k2 : String) (h : k2 ≠ k) : mapSet m k v k2 = m k2 := by
  simp [mapSet, h]

theorem mapSet_mapSet (m : String → Option GuildQueue) (k : String) (v w : Option GuildQueue) :
    mapSet (mapSet m k v) k w = mapSet m k w := by
  funext k2
  by_cases h : k2 = k <;> simp [mapSet, h]

theorem execute_notInGuild (req : PlayRequest) (env : Env) (S : BotState)
    (hg : req.inGuild = false) :
    execute req env S = (S, .notInGuild, [.reply "server-only"]) := by
  simp [execute, hg]

theorem execute_invalidChannel (req : PlayRequest) (env : Env) (S : BotState)
    (hg : req.inGuild = true) (h2 : (req.channelProvided && req.channelIsVoice) = false) :
    execute req env S = (S, .invalidChannel, [.reply "select-valid-voice-channel"]) := by
  simp [execute, hg, h2]

theorem execute_noPermission (req : PlayRequest) (env : Env) (S : BotState)
    (hg : req.inGuild = true) (h2 : (req.channelProvided && req.channelIsVoice) = true)
    (h3 : (req.hasConnectPerm && req.hasSpeakPerm) = false) :
    execute req env S = (S, .noPermission, [.reply "missing-permissions"]) := by
  simp [execute, hg, h2, h3]

theorem execute_deferFailed (req : PlayRequest) (env : Env) (S : BotState)
    (hg : req.inGuild = true) (h2 : (req.channelProvided && req.channelIsVoice) = true)
    (h3 : (req.hasConnectPerm && req.hasSpeakPerm) = true) (hd : env.deferOk = false) :
    execute req env S = (S, .deferFailed, [.logError]) := by
  simp [execute, hg, h2, h3, hd]

theorem execute_invalidURL (req : PlayRequest) (env : Env) (S : BotState)
    (hg : req.inGuild = true) (h2 : (req.channelProvided && req.channelIsVoice) = true)
    (h3 : (req.hasConnectPerm && req.hasSpeakPerm) = true) (hd : env.deferOk = true)
    (hv : env.validURL = false) :
    execute req env S = (S, .invalidURL, [.defer, .edited "invalid-url"]) := by
  simp [execute, hg, h2, h3, hd, hv]

theorem execute_resolutionFailed (req : PlayRequest) (env : Env) (S : BotState)
    (hg : req.inGuild = true) (h2 : (req.channelProvided && req.channelIsVoice) = true)
    (h3 : (req.hasConnectPerm && req.hasSpeakPerm) = true) (hd : env.deferOk = true)
    (hv : env.validURL = true) (hr : env.resolved = none) :
    execute req env S =
      (S, .resolutionFailed, [.defer, .edited "failed-to-play"] ++ logIf env.editOk) := by
  simp [execute, hg, h2, h3, hd, hv, hr]

theorem execute_existing_added (req : PlayRequest) (env : Env) (S : BotState)
    (s : Song) (q : GuildQueue) (c : Connection)
    (hg : req.inGuild = true) (h2 : (req.channelProvided && req.channelIsVoice) = true)
    (h3 : (req.hasConnectPerm && req.hasSpeakPerm) = true) (hd : env.deferOk = true)
    (hv : env.validURL = true) (hr : env.resolved = some s)
    (hq : S.queues req.guildId = some q) (hc : q.connection = some c)
    (hs : q.songs ≠ []) :
    execute req env S =
      ({ queues :=
           mapSet S.queues req.guildId
             (some { songs := q.songs ++ [s], player := q.player, connection := some c }),
         nextPlayer := S.nextPlayer },
       .addedToQueue, [.defer, .edited "added-to-queue"] ++ logIf env.editOk) := by
  simp [execute, hg, h2, h3, hd, hv, hr, getOrCreate, hq, hc]
  exact hs

theorem execute_fresh_ok (req : PlayRequest) (env : Env) (S : BotState) (s : Song)
    (hg : req.inGuild = true) (h2 : (req.channelProvided && req.channelIsVoice) = true)
    (h3 : (req.hasConnectPerm && req.hasSpeakPerm) = true) (hd : env.deferOk = true)
    (hv : env.validURL = true) (hr : env.resolved = some s)
    (hq : S.queues req.guildId = none) (hco : env.connectOk = true) :
    execute req env S =
      ({ queues :=
           mapSet S.queues req.guildId
             (some { songs := [s], player := S.nextPlayer,
                     connection := some { channelId := req.channelId } }),
         nextPlayer := S.nextPlayer + 1 },
       .nowPlaying,
       [.defer, .createPlayer S.nextPlayer, .connectAttempt req.guildId req.channelId,
        .connected req.guildId req.channelId, .registerHandlers req.guildId S.nextPlayer]
        ++ playSong env { songs := [s], player := S.nextPlayer,
                          connection := some { channelId := req.channelId } }) := by
  simp [execute, hg, h2, h3, hd, hv, hr, getOrCreate, hq, hco, mapSet_mapSet]

theorem execute_fresh_connectFail (req : PlayRequest) (env : Env) (S : BotState) (s : Song)
    (hg : req.inGuild = true) (h2 : (req.channelProvided && req.channelIsVoice) = true)
    (h3 : (req.hasConnectPerm && req.hasSpeakPerm) = true) (hd : env.deferOk = true)
    (hv : env.validURL = true) (hr : env.resolved = some s)
    (hq : S.queues req.guildId = none) (hco : env.connectOk = false) :
    execute req env S =
      ({ queues := mapSet S.queues req.guildId none, nextPlayer := S.nextPlayer + 1 },
       .connectionFailed,
       [.defer, .createPlayer S.nextPlayer, .connectAttempt req.guildId req.channelId,
        .edited "join-failed"]) := by
  simp [execute, hg, h2, h3, hd, hv, hr, getOrCreate, hq, hco, mapSet_mapSet]

theorem onIdle_none (env : Env) (g : String) (S : BotState) (hq : S.queues g = none) :
    onIdle env g S = (S, []) := by
  simp [onIdle, hq]

theorem onIdle_advance (env : Env) (g : String) (S : BotState) (q : GuildQueue)
    (hq : S.queues g = some q) (ht : q.songs.tail ≠ []) :
    onIdle env g S =
      ({ queues :=
           mapSet S.queues g
             (some { songs := q.songs.tail, player := q.player, connection := q.connection }),
         nextPlayer := S.nextPlayer },
       playSong env { songs := q.songs.tail, player := q.player, connection := q.connection }) := by
  have hl : 0 < q.songs.tail.length := List.length_pos.mpr ht
  simp [onIdle, hq, hl]
  intro hcon
  rw [List.length_tail] at hl
  omega

theorem onIdle_drain (env : Env) (g : String) (S : BotState) (q : GuildQueue) (c : Connection)
    (hq : S.queues g = some q) (ht : q.songs.tail = []) (hc : q.connection = some c) :
    onIdle env g S =
      ({ queues := mapSet S.queues g none, nextPlayer := S.nextPlayer },
       [.destroyConn g c.channelId]) := by
  simp [onIdle, hq, ht, hc]

theorem onError_none (env : Env) (g : String) (S : BotState) (hq : S.queues g = none) :
    onError env g S = (S, []) := by
  simp [onError, hq]

theorem onError_entry (env : Env) (g : String) (S : BotState) (q : GuildQueue) (c : Connection)
    (hq : S.queues g = some q) (hc : q.connection = some c) :
    onError env g S =
      ({ queues := mapSet S.queues g none, nextPlayer := S.nextPlayer },
       [.followUp "audio-error"] ++ logIf env.followOk ++ [.destroyConn g c.channelId]) := by
  simp [onError, hq, hc]

theorem inv_S0 : Inv S0 := by
  intro g q hq
  simp [S0] at hq

theorem inv_execute (req : PlayRequest) (env : Env) (S : BotState) (h : Inv S) :
    Inv (execute req env S).1 := by
  cases hg : req.inGuild with
  | false => rw [execute_notInGuild req env S hg]; exact h
  | true =>
  cases h2 : req.channelProvided && req.channelIsVoice with
  | false => rw [execute_invalidChannel req env S hg h2]; exact h
  | true =>
  cases h3 : req.hasConnectPerm && req.hasSpeakPerm with
  | false => rw [execute_noPermission req env S hg h2 h3]; exact h
  | true =>
  cases hd : env.deferOk with
  | false => rw [execute_deferFailed req env S hg h2 h3 hd]; exact h
  | true =>
  cases hv : env.validURL with
  | false => rw [execute_invalidURL req env S hg h2 h3 hd hv]; exact h
  | true =>
  cases hr : env.resolved with
  | none => rw [execute_resolutionFailed req env S hg h2 h3 hd hv hr]; exact h
  | some s =>
  cases hq : S.queues req.guildId with
  | some q =>
    obtain ⟨hc1, hs1, hp1⟩ := h req.guildId q hq
    obtain ⟨c, hc⟩ := Option.isSome_iff_exists.mp hc1
    rw [execute_existing_added req env S s q c hg h2 h3 hd hv hr hq hc hs1]
    dsimp only
    intro g2 q2 hq2
    by_cases hgg : g2 = req.guildId
    · subst hgg
      simp only [mapSet_self] at hq2
      cases hq2
      exact ⟨rfl, by simp, hp1⟩
    · simp only [mapSet_other _ _ _ _ hgg] at hq2
      exact h g2 q2 hq2
  | none =>
    cases hco : env.connectOk with
    | true =>
      rw [execute_fresh_ok req env S s hg h2 h3 hd hv hr hq hco]
      dsimp only
      intro g2 q2 hq2
      by_cases hgg : g2 = req.guildId
      · subst hgg
        simp only [mapSet_self] at hq2
        cases hq2
        exact ⟨rfl, by simp, Nat.lt_succ_self _⟩
      · simp only [mapSet_other _ _ _ _ hgg] at hq2
        obtain ⟨ha, hb, hcq⟩ := h g2 q2 hq2
        exact ⟨ha, hb, Nat.lt_succ_of_lt hcq⟩
    | false =>
      rw [execute_fresh_connectFail req env S s hg h2 h3 hd hv hr hq hco]
      dsimp only
      intro g2 q2 hq2
      by_cases hgg : g2 = req.guildId
      · subst hgg
        simp only [mapSet_self] at hq2
        cases hq2
      · simp only [mapSet_other _ _ _ _ hgg] at hq2
        obtain ⟨ha, hb, hcq⟩ := h g2 q2 hq2
        exact ⟨ha, hb, Nat.lt_succ_of_lt hcq⟩

theorem inv_onIdle (env : Env) (g : String) (S : BotState) (h : Inv S) :
    Inv (onIdle env g S).1 := by
  cases hq : S.queues g with
  | none => rw [onIdle_none env g S hq]; exact h
  | some q =>
    obtain ⟨hc1, hs1, hp1⟩ := h g q hq
    obtain ⟨c, hc⟩ := Option.isSome_iff_exists.mp hc1
    by_cases ht : q.songs.tail = []
    · rw [onIdle_drain env g S q c hq ht hc]
      dsimp only
      intro g2 q2 hq2
      by_cases hgg : g2 = g
      · subst hgg
        simp only [mapSet_self] at hq2
        cases hq2
      · simp only [mapSet_other _ _ _ _ hgg] at hq2
        exact h g2 q2 hq2
    · rw [onIdle_advance env g S q hq ht]
      dsimp only
      intro g2 q2 hq2
      by_cases hgg : g2 = g
      · subst hgg
        simp only [mapSet_self] at hq2
        cases hq2
        exact ⟨hc1, ht, hp1⟩
      · simp only [mapSet_other _ _ _ _ hgg] at hq2
        exact h g2 q2 hq2

theorem inv_onError (env : Env) (g : String) (S : BotState) (h : Inv S) :
    Inv (onError env g S).1 := by
  cases hq : S.queues g with
  | none => rw [onError_none env g S hq]; exact h
  | some q =>
    obtain ⟨hc1, hs1, hp1⟩ := h g q hq
    obtain ⟨c, hc⟩ := Option.isSome_iff_exists.mp hc1
    rw [onError_entry env g S q c hq hc]
    dsimp only
    intro g2 q2 hq2
    by_cases hgg : g2 = g
    · subst hgg
      simp only [mapSet_self] at hq2
      cases hq2
    · simp only [mapSet_other _ _ _ _ hgg] at hq2
      exact h g2 q2 hq2

theorem inv_step (e : Event) (S : BotState) (h : Inv S) : Inv (step e S).1 := by
  cases e with
  | playCmd req env => exact inv_execute req env S h
  | idle g env => exact inv_onIdle env g S h
  | playerError g env => exact inv_onError env g S h

theorem reachable_inv {S : BotState} (h : Reachable S) : Inv S := by
  induction h with
  | base => exact inv_S0
  | next e hr ih => exact inv_step e _ ih

theorem gstep_enq_fresh (s : Song) (S : BotState) (hq : S.queues "g" = none) :
    gstep (.enq s) S =
      ({ queues :=
           mapSet S.queues "g"
             (some { songs := [s], player := S.nextPlayer,
                     connection := some { channelId := "ch" } }),
         nextPlayer := S.nextPlayer + 1 },
       [.defer, .createPlayer S.nextPlayer, .connectAttempt "g" "ch", .connected "g" "ch",
        .registerHandlers "g" S.nextPlayer, .play S.nextPlayer s.url,
        .subscribe "ch" S.nextPlayer, .notifyNowPlaying s.title "ch"]) := by
  have h := execute_fresh_ok (mkReq "g" "ch") (okEnv s) S s rfl rfl rfl rfl rfl rfl hq rfl
  simp only [gstep, step, h]
  simp [playSong, okEnv, logIf, mkReq]

theorem gstep_enq_existing (s : Song) (S : BotState) (q : GuildQueue) (c : Connection)
    (hq : S.queues "g" = some q) (hc : q.connection = some c) (hs : q.songs ≠ []) :
    gstep (.enq s) S =
      ({ queues :=
           mapSet S.queues "g"
             (some { songs := q.songs ++ [s], player := q.player, connection := some c }),
         nextPlayer := S.nextPlayer },
       [.defer, .edited "added-to-queue"]) := by
  have h := execute_existing_added (mkReq "g" "ch") (okEnv s) S s q c rfl rfl rfl rfl rfl rfl
    hq hc hs
  simp only [gstep, step, h]
  simp [okEnv, logIf, mkReq]

theorem gstep_idle_advance (S : BotState) (pid : Nat) (c : Connection) (x y : Song)
    (rest : List Song)
    (hq : S.queues "g" = some { songs := x :: y :: rest, player := pid, connection := some c }) :
    gstep .idle S =
      ({ queues :=
           mapSet S.queues "g"
             (some { songs := y :: rest, player := pid, connection := some c }),
         nextPlayer := S.nextPlayer },
       [.play pid y.url, .subscribe c.channelId pid,
        .notifyNowPlaying y.title c.channelId]) := by
  have h := onIdle_advance idleEnv "g" S _ hq (by simp)
  simp only [gstep, step, h]
  simp [playSong, idleEnv, logIf]

theorem gstep_idle_drain (S : BotState) (pid : Nat) (c : Connection) (x : Song)
    (hq : S.queues "g" = some { songs := [x], player := pid, connection := some c }) :
    gstep .idle S =
      ({ queues := mapSet S.queues "g" none, nextPlayer := S.nextPlayer },
       [.destroyConn "g" c.channelId]) := by
  have h := onIdle_drain idleEnv "g" S _ c hq (by simp) rfl
  simp only [gstep, step, h]

theorem runG_append (S : BotState) (h : List GEvent) (e : GEvent) :
    runG S (h ++ [e]) =
      ((gstep e (runG S h).1).1, (runG S h).2 ++ (gstep e (runG S h).1).2) := by
  induction h generalizing S with
  | nil => simp [runG]
  | cons a t ih => simp [runG, ih]

theorem admissible_append (S : BotState) (h : List GEvent) (e : GEvent) :
    admissibleFrom S (h ++ [e]) =
      (admissibleFrom S h &&
        match e with
        | .enq _ => true
        | .idle => ((runG S h).1.queues "g").isSome) := by
  induction h generalizing S with
  | nil => cases e <;> simp [admissibleFrom, runG]
  | cons a t ih =>
    cases a <;> simp [admissibleFrom, runG, ih, Bool.and_assoc]

theorem arrivals_append (h1 h2 : List GEvent) :
    arrivals (h1 ++ h2) = arrivals h1 ++ arrivals h2 := by
  simp [arrivals]

theorem idles_append (h1 h2 : List GEvent) :
    idles (h1 ++ h2) = idles h1 + idles h2 := by
  simp [idles, List.countP_append]

theorem playUrls_append (l1 l2 : List Effect) :
    playUrls (l1 ++ l2) = playUrls l1 ++ playUrls l2 := by
  simp [playUrls]

theorem arrivals_enq (s : Song) : arrivals [GEvent.enq s] = [s] := rfl

theorem arrivals_idle : arrivals [GEvent.idle] = [] := rfl

theorem idles_enq (s : Song) : idles [GEvent.enq s] = 0 := rfl

theorem idles_idle : idles [GEvent.idle] = 1 := rfl

theorem c1_core (h : List GEvent) (ha : admissibleFrom S0 h = true) :
    idles h ≤ (arrivals h).length
    ∧ (idles h < (arrivals h).length → ∃ pid,
        (runG S0 h).1.queues "g" =
          some { songs := (arrivals h).drop (idles h), player := pid,
                 connection := some { channelId := "ch" } })
    ∧ (idles h = (arrivals h).length → (runG S0 h).1.queues "g" = none)
    ∧ playUrls (runG S0 h).2 =
        ((arrivals h).map Song.url).take (min (idles h + 1) (arrivals h).length) := by
  induction h using List.reverseRecOn with
  | nil =>
    refine ⟨Nat.le_refl _, ?_, ?_, ?_⟩ <;> simp [runG, arrivals, idles, playUrls, S0]
  | append_singleton t e ih =>
    rw [admissible_append, Bool.and_eq_true] at ha
    obtain ⟨hat, hcond⟩ := ha
    obtain ⟨ih1, ih2, ih3, ih4⟩ := ih hat
    cases e with
    | enq s =>
      rw [runG_append, arrivals_append, idles_append, arrivals_enq, idles_enq]
      simp only [Nat.add_zero]
      by_cases hlt : idles t < (arrivals t).length
      · obtain ⟨pid, hent⟩ := ih2 hlt
        have hne : (arrivals t).drop (idles t) ≠ [] := by
          intro hnil
          rw [List.drop_eq_nil_iff] at hnil
          omega
        rw [gstep_enq_existing s _ _ _ hent rfl hne]
        refine ⟨?_, ?_, ?_, ?_⟩
        · simp only [List.length_append, List.length_cons, List.length_nil]
          omega
        · intro hlt2
          refine ⟨pid, ?_⟩
          simp only [mapSet_self]
          rw [List.drop_append_of_le_length (Nat.le_of_lt hlt)]
        · intro heq
          rw [List.length_append, List.length_cons, List.length_nil] at heq
          omega
        · dsimp only
          rw [playUrls_append, ih4]
          have h1 : playUrls [Effect.defer, Effect.edited "added-to-queue"] = [] := rfl
          rw [h1, List.append_nil, List.map_append, List.length_append]
          have hm : min (idles t + 1) (arrivals t).length = idles t + 1 := by omega
          have hm2 : min (idles t + 1) ((arrivals t).length + [s].length) = idles t + 1 := by
            simp only [List.length_cons, List.length_nil]
            omega
          rw [hm, hm2]
          rw [List.take_append_of_le_length]
          rw [List.length_map]
          omega
      · have hk : idles t = (arrivals t).length := by omega
        have hnone := ih3 hk
        rw [gstep_enq_fresh s _ hnone]
        have hdrop : (arrivals t ++ [s]).drop (idles t) = [s] := by
          rw [hk, List.drop_append_of_le_length (Nat.le_refl _), List.drop_length]
          rfl
        refine ⟨?_, ?_, ?_, ?_⟩
        · simp only [List.length_append, List.length_cons, List.length_nil]
          omega
        · intro _
          refine ⟨(runG S0 t).1.nextPlayer, ?_⟩
          simp only [mapSet_self]
          rw [hdrop]
        · intro heq
          rw [List.length_append, List.length_cons, List.length_nil] at heq
          omega
        · dsimp only
          rw [playUrls_append, ih4]
          have h1 : ∀ np : Nat, playUrls
              [Effect.defer, Effect.createPlayer np, Effect.connectAttempt "g" "ch",
               Effect.connected "g" "ch", Effect.registerHandlers "g" np,
               Effect.play np s.url, Effect.subscribe "ch" np,
               Effect.notifyNowPlaying s.title "ch"] = [s.url] := fun np => rfl
          rw [h1, List.map_append, List.length_append]
          have hm : min (idles t + 1) (arrivals t).length = (arrivals t).length := by omega
          have hm2 : min (idles t + 1) ((arrivals t).length + [s].length) =
              (arrivals t).length + 1 := by
            simp only [List.length_cons, List.length_nil]
            omega
          rw [hm, hm2]
          rw [← List.length_map (arrivals t) Song.url, List.take_length]
          rw [List.take_of_length_le]
          · rfl
          · simp only [List.length_append, List.length_map, List.length_cons, List.length_nil]
            omega
    | idle =>
      have hcond2 : ((runG S0 t).1.queues "g").isSome = true := hcond
      rw [runG_append, arrivals_append, idles_append, arrivals_idle, idles_idle,
        List.append_nil]
      have hlt : idles t < (arrivals t).length := by
        by_contra hge
        have hk : idles t = (arrivals t).length := by omega
        rw [ih3 hk] at hcond2
        simp at hcond2
      obtain ⟨pid, hent⟩ := ih2 hlt
      have hd1 : (arrivals t).drop (idles t) =
          (arrivals t)[idles t] :: (arrivals t).drop (idles t + 1) :=
        List.drop_eq_getElem_cons hlt
      by_cases hlt2 : idles t + 1 < (arrivals t).length
      · have hd2 : (arrivals t).drop (idles t + 1) =
            (arrivals t)[idles t + 1] :: (arrivals t).drop (idles t + 2) :=
          List.drop_eq_getElem_cons hlt2
        rw [hd1, hd2] at hent
        rw [gstep_idle_advance _ pid _ _ _ _ hent]
        refine ⟨by omega, ?_, ?_, ?_⟩
        · intro _
          refine ⟨pid, ?_⟩
          simp only [mapSet_self]
          rw [← hd2]
        · intro heq
          omega
        · dsimp only
          rw [playUrls_append, ih4]
          have h1 : playUrls
              [Effect.play pid ((arrivals t)[idles t + 1]).url,
               Effect.subscribe "ch" pid,
               Effect.notifyNowPlaying ((arrivals t)[idles t + 1]).title "ch"] =
              [((arrivals t)[idles t + 1]).url] := rfl
          rw [h1]
          have hm : min (idles t + 1) (arrivals t).length = idles t + 1 := by omega
          have hm2 : min (idles t + 1 + 1) (arrivals t).length = idles t + 1 + 1 := by omega
          rw [hm, hm2]
          conv_rhs => rw [List.take_succ]
          congr 1
          rw [List.getElem?_map]
          rw [List.getElem?_eq_getElem hlt2]
          rfl
      · have hk2 : idles t + 1 = (arrivals t).length := by omega
        have hd3 : (arrivals t).drop (idles t + 1) = [] := by
          rw [List.drop_eq_nil_iff]
          omega
        rw [hd1, hd3] at hent
        rw [gstep_idle_drain _ pid _ _ hent]
        refine ⟨by omega, ?_, ?_, ?_⟩
        · intro hlt3
          omega
        · intro _
          simp only [mapSet_self]
        · dsimp only
          rw [playUrls_append, ih4]
          have h1 : playUrls [Effect.destroyConn "g" "ch"] = [] := rfl
          rw [h1, List.append_nil]
          have hm : min (idles t + 1) (arrivals t).length = (arrivals t).length := by omega
          have hm2 : min (idles t + 1 + 1) (arrivals t).length = (arrivals t).length := by
            omega
          rw [hm, hm2]

theorem execute_cases (req : PlayRequest) (env : Env) (S : BotState) (hInv : Inv S) :
    execute req env S = (S, .notInGuild, [.reply "server-only"])
    ∨ execute req env S = (S, .invalidChannel, [.reply "select-valid-voice-channel"])
    ∨ execute req env S = (S, .noPermission, [.reply "missing-permissions"])
    ∨ execute req env S = (S, .deferFailed, [.logError])
    ∨ execute req env S = (S, .invalidURL, [.defer, .edited "invalid-url"])
    ∨ execute req env S =
        (S, .resolutionFailed, [.defer, .edited "failed-to-play"] ++ logIf env.editOk)
    ∨ (∃ s q c, env.resolved = some s ∧ S.queues req.guildId = some q ∧ q.connection = some c
        ∧ q.songs ≠ []
        ∧ execute req env S =
            ({ queues := mapSet S.queues req.guildId
                 (some { songs := q.songs ++ [s], player := q.player, connection := some c }),
               nextPlayer := S.nextPlayer },
             .addedToQueue, [.defer, .edited "added-to-queue"] ++ logIf env.editOk))
    ∨ (∃ s, env.resolved = some s ∧ S.queues req.guildId = none ∧ env.connectOk = true
        ∧ execute req env S =
            ({ queues := mapSet S.queues req.guildId
                 (some { songs := [s], player := S.nextPlayer,
                         connection := some { channelId := req.channelId } }),
               nextPlayer := S.nextPlayer + 1 },
             .nowPlaying,
             [.defer, .createPlayer S.nextPlayer, .connectAttempt req.guildId req.channelId,
              .connected req.guildId req.channelId, .registerHandlers req.guildId S.nextPlayer]
              ++ playSong env { songs := [s], player := S.nextPlayer,
                                connection := some { channelId := req.channelId } }))
    ∨ (∃ s, env.resolved = some s ∧ S.queues req.guildId = none ∧ env.connectOk = false
        ∧ execute req env S =
            ({ queues := mapSet S.queues req.guildId none, nextPlayer := S.nextPlayer + 1 },
             .connectionFailed,
             [.defer, .createPlayer S.nextPlayer, .connectAttempt req.guildId req.channelId,
              .edited "join-failed"])) := by
  cases hg : req.inGuild with
  | false => exact Or.inl (execute_notInGuild req env S hg)
  | true =>
  cases h2 : req.channelProvided && req.channelIsVoice with
  | false => exact Or.inr (Or.inl (execute_invalidChannel req env S hg h2))
  | true =>
  cases h3 : req.hasConnectPerm && req.hasSpeakPerm with
  | false => exact Or.inr (Or.inr (Or.inl (execute_noPermission req env S hg h2 h3)))
  | true =>
  cases hd : env.deferOk with
  | false => exact Or.inr (Or.inr (Or.inr (Or.inl (execute_deferFailed req env S hg h2 h3 hd))))
  | true =>
  cases hv : env.validURL with
  | false =>
    exact Or.inr (Or.inr (Or.inr (Or.inr (Or.inl
      (execute_invalidURL req env S hg h2 h3 hd hv)))))
  | true =>
  cases hr : env.resolved with
  | none =>
    exact Or.inr (Or.inr (Or.inr (Or.inr (Or.inr (Or.inl
      (execute_resolutionFailed req env S hg h2 h3 hd hv hr))))))
  | some s =>
  cases hq : S.queues req.guildId with
  | some q =>
    obtain ⟨hc1, hs1, hp1⟩ := hInv req.guildId q hq
    obtain ⟨c, hc⟩ := Option.isSome_iff_exists.mp hc1
    exact Or.inr (Or.inr (Or.inr (Or.inr (Or.inr (Or.inr (Or.inl
      ⟨s, q, c, rfl, rfl, hc, hs1,
       execute_existing_added req env S s q c hg h2 h3 hd hv hr hq hc hs1⟩))))))
  | none =>
    cases hco : env.connectOk with
    | true =>
      exact Or.inr (Or.inr (Or.inr (Or.inr (Or.inr (Or.inr (Or.inr (Or.inl
        ⟨s, rfl, rfl, rfl, execute_fresh_ok req env S s hg h2 h3 hd hv hr hq hco⟩)))))))
    | false =>
      exact Or.inr (Or.inr (Or.inr (Or.inr (Or.inr (Or.inr (Or.inr (Or.inr
        ⟨s, rfl, rfl, rfl, execute_fresh_connectFail req env S s hg h2 h3 hd hv hr hq hco⟩)))))))

theorem onIdle_cases (env : Env) (g : String) (S : BotState) (hInv : Inv S) :
    (S.queues g = none ∧ onIdle env g S = (S, []))
    ∨ (∃ q c, S.queues g = some q ∧ q.connection = some c ∧ q.songs.tail ≠ []
        ∧ onIdle env g S =
            ({ queues := mapSet S.queues g
                 (some { songs := q.songs.tail, player := q.player,
                         connection := q.connection }),
               nextPlayer := S.nextPlayer },
             playSong env { songs := q.songs.tail, player := q.player,
                            connection := q.connection }))
    ∨ (∃ q c, S.queues g = some q ∧ q.connection = some c ∧ q.songs.tail = []
        ∧ onIdle env g S =
            ({ queues := mapSet S.queues g none, nextPlayer := S.nextPlayer },
             [.destroyConn g c.channelId])) := by
  cases hq : S.queues g with
  | none => exact Or.inl ⟨rfl, onIdle_none env g S hq⟩
  | some q =>
    obtain ⟨hc1, hs1, hp1⟩ := hInv g q hq
    obtain ⟨c, hc⟩ := Option.isSome_iff_exists.mp hc1
    by_cases ht : q.songs.tail = []
    · exact Or.inr (Or.inr ⟨q, c, rfl, hc, ht, onIdle_drain env g S q c hq ht hc⟩)
    · exact Or.inr (Or.inl ⟨q, c, rfl, hc, ht, onIdle_advance env g S q hq ht⟩)

theorem onError_cases (env : Env) (g : String) (S : BotState) (hInv : Inv S) :
    (S.queues g = none ∧ onError env g S = (S, []))
    ∨ (∃ q c, S.queues g = some q ∧ q.connection = some c
        ∧ onError env g S =
            ({ queues := mapSet S.queues g none, nextPlayer := S.nextPlayer },
             [.followUp "audio-error"] ++ logIf env.followOk
               ++ [.destroyConn g c.channelId])) := by
  cases hq : S.queues g with
  | none => exact Or.inl ⟨rfl, onError_none env g S hq⟩
  | some q =>
    obtain ⟨hc1, hs1, hp1⟩ := hInv g q hq
    obtain ⟨c, hc⟩ := Option.isSome_iff_exists.mp hc1
    exact Or.inr ⟨q, c, rfl, hc, onError_entry env g S q c hq hc⟩

theorem playSong_play_player (env : Env) (q : GuildQueue) (pid : Nat) (url : String)
    (hmem : Effect.play pid url ∈ playSong env q) : pid = q.player := by
  unfold playSong at hmem
  cases hh : q.songs.head? <;> rw [hh] at hmem <;>
    cases hs : env.streamOk <;> rw [hs] at hmem <;>
      cases hc : q.connection <;> cases he : env.editOk <;> cases hf : env.followOk <;>
        simp [logIf, hc] at hmem <;> tauto

theorem playSong_notify (env : Env) (q : GuildQueue) (t ch : String)
    (hmem : Effect.notifyNowPlaying t ch ∈ playSong env q) :
    ∃ c s, q.connection = some c ∧ ch = c.channelId ∧ q.songs.head? = some s
      ∧ t = s.title := by
  unfold playSong at hmem
  cases hh : q.songs.head? with
  | none =>
    rw [hh] at hmem
    cases hf : env.followOk <;> simp [logIf, hf] at hmem
  | some s =>
    rw [hh] at hmem
    cases hs : env.streamOk with
    | false =>
      rw [hs] at hmem
      cases hf : env.followOk <;> simp [logIf, hf] at hmem
    | true =>
      rw [hs] at hmem
      cases hc : q.connection with
      | none =>
        rw [hc] at hmem
        cases hf : env.followOk <;> simp [logIf, hf] at hmem
      | some c =>
        rw [hc] at hmem
        cases he : env.editOk <;> simp [logIf, he] at hmem <;>
          exact ⟨c, s, rfl, hmem.2, rfl, hmem.1⟩

theorem playSong_no_conn (env : Env) (q : GuildQueue) :
    ((playSong env q).filter Effect.isConnectAttempt).length = 0
    ∧ ((playSong env q).filter Effect.isConnected).length = 0
    ∧ ((playSong env q).filter Effect.isRegister).length = 0 := by
  unfold playSong
  cases hh : q.songs.head? <;> cases hs : env.streamOk <;>
    cases hc : q.connection <;> cases he : env.editOk <;> cases hf : env.followOk <;>
      simp [logIf, Effect.isConnectAttempt, Effect.isConnected, Effect.isRegister]

theorem reachable_SA : Reachable SA :=
  Reachable.next _ Reachable.base

theorem reachable_SAB : Reachable SAB :=
  Reachable.next _ reachable_SA

/-- Claim C2: for every guild in every reachable state, a live queue entry
(the only holder of a connection handle) always carries a present
connection and a nonempty songs list: the connection exists exactly while
the guild still has a current or waiting song, and cannot outlive them,
since a guild without an entry holds no connection at all. -/
theorem connection_iff_songs_inv (S : BotState) (hS : Reachable S) (g : String)
    (q : GuildQueue) (hq : S.queues g = some q) :
    q.connection.isSome = true ∧ q.songs ≠ [] := by
  obtain ⟨h1, h2, _⟩ := reachable_inv hS g q hq
  exact ⟨h1, h2⟩

theorem connection_iff_songs_inv_witness :
    SA.queues "g" =
      some { songs := [songA], player := 0, connection := some { channelId := "ch" } }
    ∧ (some { channelId := "ch" } : Option Connection).isSome = true
    ∧ ([songA] : List Song) ≠ [] := by
  refine ⟨by decide, ?_⟩
  exact connection_iff_songs_inv SA reachable_SA "g"
    { songs := [songA], player := 0, connection := some { channelId := "ch" } } (by decide)

/-- Claim C4: with a failing voice join, an enqueue on a guild without an
entry (the only situation in which a join is attempted) reports the
connection failure and removes the just created entry, leaving the whole
queue map exactly as before, so the song of the failed request is never
durably added; on a guild with a live entry no connection is ever
attempted and the enqueue cannot fail with a connection error: it simply
appends the song to the existing entry. -/
theorem connection_failure_rollback (S : BotState) (hS : Reachable S) (req : PlayRequest)
    (env : Env) (s : Song)
    (hg : req.inGuild = true) (h2 : (req.channelProvided && req.channelIsVoice) = true)
    (h3 : (req.hasConnectPerm && req.hasSpeakPerm) = true) (hd : env.deferOk = true)
    (hv : env.validURL = true) (hr : env.resolved = some s)
    (hco : env.connectOk = false) :
    (S.queues req.guildId = none →
      (execute req env S).2.1 = .connectionFailed
      ∧ ∀ g2, (execute req env S).1.queues g2 = S.queues g2)
    ∧ (∀ q, S.queues req.guildId = some q →
      (execute req env S).2.1 = .addedToQueue
      ∧ ((execute req env S).2.2.filter Effect.isConnectAttempt).length = 0
      ∧ (execute req env S).1.queues req.guildId =
          some { songs := q.songs ++ [s], player := q.player,
                 connection := q.connection }) := by
  constructor
  · intro hq
    rw [execute_fresh_connectFail req env S s hg h2 h3 hd hv hr hq hco]
    refine ⟨rfl, ?_⟩
    intro g2
    dsimp only
    by_cases hgg : g2 = req.guildId
    · subst hgg
      rw [mapSet_self, hq]
    · exact mapSet_other _ _ _ _ hgg
  · intro q hq
    obtain ⟨hc1, hs1, hp1⟩ := reachable_inv hS req.guildId q hq
    obtain ⟨c, hc⟩ := Option.isSome_iff_exists.mp hc1
    rw [execute_existing_added req env S s q c hg h2 h3 hd hv hr hq hc hs1]
    refine ⟨rfl, ?_, ?_⟩
    · cases he : env.editOk <;> simp [logIf, he, Effect.isConnectAttempt]
    · dsimp only
      rw [mapSet_self, hc]

theorem connection_failure_rollback_witness :
    (execute (mkReq "g" "ch") envNoConnect S0).2.1 = PlayResult.connectionFailed
    ∧ (execute (mkReq "g" "ch") envNoConnect S0).1.queues "g" = S0.queues "g" := by
  have h := connection_failure_rollback S0 Reachable.base (mkReq "g" "ch") envNoConnect
    songA rfl rfl rfl rfl rfl rfl rfl
  obtain ⟨hres, hst⟩ := h.1 rfl
  exact ⟨hres, hst "g"⟩

/-- Claim C5: when the query fails URL validation or the metadata lookup
fails, the enqueue reports the resolution failure and mutates nothing: the
returned state is the input state itself, so no queue entry is created or
changed and no connection is touched. -/
theorem resolution_failure_no_mutation (S : BotState) (req : PlayRequest) (env : Env)
    (hg : req.inGuild = true) (h2 : (req.channelProvided && req.channelIsVoice) = true)
    (h3 : (req.hasConnectPerm && req.hasSpeakPerm) = true) (hd : env.deferOk = true)
    (hres : env.validURL = false ∨ env.resolved = none) :
    ((execute req env S).2.1 = .invalidURL ∨ (execute req env S).2.1 = .resolutionFailed)
    ∧ (execute req env S).1 = S := by
  rcases hres with hv | hr
  · rw [execute_invalidURL req env S hg h2 h3 hd hv]
    exact ⟨Or.inl rfl, rfl⟩
  · cases hv : env.validURL with
    | false =>
      rw [execute_invalidURL req env S hg h2 h3 hd hv]
      exact ⟨Or.inl rfl, rfl⟩
    | true =>
      rw [execute_resolutionFailed req env S hg h2 h3 hd hv hr]
      exact ⟨Or.inr rfl, rfl⟩

theorem resolution_failure_no_mutation_witness :
    ((execute (mkReq "g" "ch") envBadURL S0).2.1 = PlayResult.invalidURL
      ∨ (execute (mkReq "g" "ch") envBadURL S0).2.1 = PlayResult.resolutionFailed)
    ∧ (execute (mkReq "g" "ch") envBadURL S0).1 = S0 :=
  resolution_failure_no_mutation S0 (mkReq "g" "ch") envBadURL rfl rfl rfl rfl
    (Or.inl rfl)

/-- Counterexample to claim C8 as stated: a failure of one notification
step, the initial reply deferral, changes both the outcome of the enqueue
and the resulting queue state: with a failing defer the command aborts
before touching the queue map and no entry is created, while the same
request with a delivered defer creates the entry and starts playback. -/
theorem defer_failure_changes_outcome :
    (execute (mkReq "g" "ch") envNoDefer S0).2.1 ≠
      (execute (mkReq "g" "ch") (okEnv songA) S0).2.1
    ∧ (execute (mkReq "g" "ch") envNoDefer S0).1.queues "g" = none
    ∧ (execute (mkReq "g" "ch") (okEnv songA) S0).1.queues "g" ≠ none := by
  decide

/-- Claim C8 (amended): except for the initial reply deferral, whose
failure aborts the enqueue before any state change, notification delivery
failures are swallowed and logged only: two environments agreeing on
everything except the delivery outcomes of reply edits and follow ups
yield the same post state and the same result for every enqueue, and the
same post state for every idle and error event. -/
theorem notify_failures_after_defer_harmless (S : BotState) (hS : Reachable S)
    (req : PlayRequest) (env env2 : Env) (g : String)
    (hd : env2.deferOk = env.deferOk) (hv : env2.validURL = env.validURL)
    (hr : env2.resolved = env.resolved) (hc : env2.connectOk = env.connectOk) :
    (execute req env2 S).1 = (execute req env S).1
    ∧ (execute req env2 S).2.1 = (execute req env S).2.1
    ∧ (onIdle env2 g S).1 = (onIdle env g S).1
    ∧ (onError env2 g S).1 = (onError env g S).1 := by
  have hInv := reachable_inv hS
  have hmain : (execute req env2 S).1 = (execute req env S).1
      ∧ (execute req env2 S).2.1 = (execute req env S).2.1 := by
    cases hg : req.inGuild with
    | false =>
      rw [execute_notInGuild req env2 S hg, execute_notInGuild req env S hg]
      exact ⟨rfl, rfl⟩
    | true =>
    cases h2 : req.channelProvided && req.channelIsVoice with
    | false =>
      rw [execute_invalidChannel req env2 S hg h2, execute_invalidChannel req env S hg h2]
      exact ⟨rfl, rfl⟩
    | true =>
    cases h3 : req.hasConnectPerm && req.hasSpeakPerm with
    | false =>
      rw [execute_noPermission req env2 S hg h2 h3, execute_noPermission req env S hg h2 h3]
      exact ⟨rfl, rfl⟩
    | true =>
    cases hdd : env.deferOk with
    | false =>
      rw [execute_deferFailed req env2 S hg h2 h3 (hd.trans hdd),
        execute_deferFailed req env S hg h2 h3 hdd]
      exact ⟨rfl, rfl⟩
    | true =>
    cases hvv : env.validURL with
    | false =>
      rw [execute_invalidURL req env2 S hg h2 h3 (hd.trans hdd) (hv.trans hvv),
        execute_invalidURL req env S hg h2 h3 hdd hvv]
      exact ⟨rfl, rfl⟩
    | true =>
    cases hrr : env.resolved with
    | none =>
      rw [execute_resolutionFailed req env2 S hg h2 h3 (hd.trans hdd) (hv.trans hvv)
          (hr.trans hrr),
        execute_resolutionFailed req env S hg h2 h3 hdd hvv hrr]
      exact ⟨rfl, rfl⟩
    | some s =>
    cases hqq : S.queues req.guildId with
    | some q =>
      obtain ⟨hc1, hs1, hp1⟩ := hInv req.guildId q hqq
      obtain ⟨cc, hcc⟩ := Option.isSome_iff_exists.mp hc1
      rw [execute_existing_added req env2 S s q cc hg h2 h3 (hd.trans hdd) (hv.trans hvv)
          (hr.trans hrr) hqq hcc hs1,
        execute_existing_added req env S s q cc hg h2 h3 hdd hvv hrr hqq hcc hs1]
      exact ⟨rfl, rfl⟩
    | none =>
      cases hco : env.connectOk with
      | true =>
        rw [execute_fresh_ok req env2 S s hg h2 h3 (hd.trans hdd) (hv.trans hvv)
            (hr.trans hrr) hqq (hc.trans hco),
          execute_fresh_ok req env S s hg h2 h3 hdd hvv hrr hqq hco]
        exact ⟨rfl, rfl⟩
      | false =>
        rw [execute_fresh_connectFail req env2 S s hg h2 h3 (hd.trans hdd) (hv.trans hvv)
            (hr.trans hrr) hqq (hc.trans hco),
          execute_fresh_connectFail req env S s hg h2 h3 hdd hvv hrr hqq hco]
        exact ⟨rfl, rfl⟩
  have hidle : (onIdle env2 g S).1 = (onIdle env g S).1 := by
    cases hqq : S.queues g with
    | none => rw [onIdle_none env2 g S hqq, onIdle_none env g S hqq]
    | some q =>
      by_cases ht : q.songs.tail = []
      · cases hcq : q.connection with
        | some cc =>
          rw [onIdle_drain env2 g S q cc hqq ht hcq, onIdle_drain env g S q cc hqq ht hcq]
        | none => simp [onIdle, hqq, ht, hcq]
      · rw [onIdle_advance env2 g S q hqq ht, onIdle_advance env g S q hqq ht]
  have herr : (onError env2 g S).1 = (onError env g S).1 := by
    cases hqq : S.queues g with
    | none => rw [onError_none env2 g S hqq, onError_none env g S hqq]
    | some q =>
      cases hcq : q.connection with
      | some cc =>
        rw [onError_entry env2 g S q cc hqq hcq, onError_entry env g S q cc hqq hcq]
      | none => simp [onError, hqq, hcq]
  exact ⟨hmain.1, hmain.2, hidle, herr⟩

theorem notify_failures_after_defer_harmless_witness :
    (execute (mkReq "g" "ch") envNoNotify S0).1.queues "g" =
      (execute (mkReq "g" "ch") (okEnv songA) S0).1.queues "g"
    ∧ (execute (mkReq "g" "ch") envNoNotify S0).2.1 =
        (execute (mkReq "g" "ch") (okEnv songA) S0).2.1 := by
  have h := notify_failures_after_defer_harmless S0 Reachable.base (mkReq "g" "ch")
    (okEnv songA) envNoNotify "g" rfl rfl rfl rfl
  exact ⟨congrArg (fun T => T.queues "g") h.1, h.2.1⟩

/-- Claim C10: an invocation outside a guild, or naming a channel that is
not a guild voice channel, or lacking the Connect or Speak permission, is
rejected with a reply before any queue state is read or written: the state
comes back unchanged, the result is one of the three rejections, and the
sole effect is the rejection reply, so no connection is ever attempted. -/
theorem guard_rejection_no_state_change (req : PlayRequest) (env : Env) (S : BotState)
    (hbad : req.inGuild = false ∨ (req.channelProvided && req.channelIsVoice) = false
      ∨ (req.hasConnectPerm && req.hasSpeakPerm) = false) :
    (execute req env S).1 = S
    ∧ ((execute req env S).2.1 = .notInGuild ∨ (execute req env S).2.1 = .invalidChannel
        ∨ (execute req env S).2.1 = .noPermission)
    ∧ (∃ m, (execute req env S).2.2 = [Effect.reply m]) := by
  rcases hbad with hg | h2 | h3
  · rw [execute_notInGuild req env S hg]
    exact ⟨rfl, Or.inl rfl, ⟨_, rfl⟩⟩
  · cases hg : req.inGuild with
    | false =>
      rw [execute_notInGuild req env S hg]
      exact ⟨rfl, Or.inl rfl, ⟨_, rfl⟩⟩
    | true =>
      rw [execute_invalidChannel req env S hg h2]
      exact ⟨rfl, Or.inr (Or.inl rfl), ⟨_, rfl⟩⟩
  · cases hg : req.inGuild with
    | false =>
      rw [execute_notInGuild req env S hg]
      exact ⟨rfl, Or.inl rfl, ⟨_, rfl⟩⟩
    | true =>
      cases h2 : req.channelProvided && req.channelIsVoice with
      | false =>
        rw [execute_invalidChannel req env S hg h2]
        exact ⟨rfl, Or.inr (Or.inl rfl), ⟨_, rfl⟩⟩
      | true =>
        rw [execute_noPermission req env S hg h2 h3]
        exact ⟨rfl, Or.inr (Or.inr rfl), ⟨_, rfl⟩⟩

theorem guard_rejection_no_state_change_witness :
    (execute badReq (okEnv songA) S0).1 = S0
    ∧ ((execute badReq (okEnv songA) S0).2.1 = PlayResult.notInGuild
        ∨ (execute badReq (okEnv songA) S0).2.1 = PlayResult.invalidChannel
        ∨ (execute badReq (okEnv songA) S0).2.1 = PlayResult.noPermission)
    ∧ (∃ m, (execute badReq (okEnv songA) S0).2.2 = [Effect.reply m]) :=
  guard_rejection_no_state_change badReq (okEnv songA) S0 (Or.inl rfl)

/-- Claim C3: a player error signal for a guild with a live entry tears it
down completely: the entry, and with it the whole songs list, is removed
from the map, the connection is destroyed, and other guilds are untouched;
a subsequent successful enqueue then builds a fresh entry holding only the
new song, with a newly created player handle distinct from the old one and
a fresh connection to the channel of the new request. -/
theorem player_error_hard_reset (S : BotState) (hS : Reachable S) (g : String)
    (q : GuildQueue) (hq : S.queues g = some q) (env env2 : Env) (req : PlayRequest)
    (s : Song) (hgid : req.guildId = g)
    (hg : req.inGuild = true) (h2 : (req.channelProvided && req.channelIsVoice) = true)
    (h3 : (req.hasConnectPerm && req.hasSpeakPerm) = true) (hd : env2.deferOk = true)
    (hv : env2.validURL = true) (hr : env2.resolved = some s)
    (hco : env2.connectOk = true) :
    (onError env g S).1.queues g = none
    ∧ (∃ ch, Effect.destroyConn g ch ∈ (onError env g S).2)
    ∧ (∀ g2, g2 ≠ g → (onError env g S).1.queues g2 = S.queues g2)
    ∧ (execute req env2 (onError env g S).1).1.queues g =
        some { songs := [s], player := S.nextPlayer,
               connection := some { channelId := req.channelId } }
    ∧ q.player ≠ S.nextPlayer
    ∧ Effect.connected g req.channelId ∈ (execute req env2 (onError env g S).1).2.2 := by
  subst hgid
  obtain ⟨hc1, hs1, hp1⟩ := reachable_inv hS req.guildId q hq
  obtain ⟨c, hc⟩ := Option.isSome_iff_exists.mp hc1
  rw [onError_entry env req.guildId S q c hq hc]
  dsimp only
  have hqE : ({ queues := mapSet S.queues req.guildId none, nextPlayer := S.nextPlayer }
      : BotState).queues req.guildId = none := mapSet_self _ _ _
  rw [execute_fresh_ok req env2 _ s hg h2 h3 hd hv hr hqE hco]
  dsimp only
  refine ⟨mapSet_self _ _ _, ⟨c.channelId, ?_⟩, ?_, mapSet_self _ _ _, by omega, by simp⟩
  · cases hf : env.followOk <;> simp [logIf, hf]
  · intro g2 hgg
    exact mapSet_other _ _ _ _ hgg

theorem player_error_hard_reset_witness :
    (onError idleEnv "g" SA).1.queues "g" = none
    ∧ (execute (mkReq "g" "ch2") (okEnv songB) (onError idleEnv "g" SA).1).1.queues "g" =
        some { songs := [songB], player := SA.nextPlayer,
               connection := some { channelId := "ch2" } } := by
  have h := player_error_hard_reset SA reachable_SA "g"
    { songs := [songA], player := 0, connection := some { channelId := "ch" } }
    (by decide) idleEnv (okEnv songB) (mkReq "g" "ch2") songB rfl rfl rfl rfl rfl rfl
    rfl rfl
  exact ⟨h.1, h.2.2.2.1⟩

/-- Counterexample to claim C6 as stated: the player handle is created at
queue creation, not at first connection, and a created queue is never
without a player: an enqueue whose voice join fails creates a player (the
createPlayer action of getOrCreate) although no connection is ever
established for the guild and the entry is discarded again. -/
theorem player_created_without_connection :
    (getOrCreate "g" S0).2.2 = [Effect.createPlayer 0]
    ∧ ((execute (mkReq "g" "ch") envNoConnect S0).2.2.filter
        Effect.isCreatePlayer).length = 1
    ∧ ((execute (mkReq "g" "ch") envNoConnect S0).2.2.filter
        Effect.isConnected).length = 0
    ∧ (execute (mkReq "g" "ch") envNoConnect S0).1.queues "g" = none := by
  decide

/-- Claim C6 (amended): getOrCreate returns the existing queue for the
guild with the state untouched, or creates and registers an empty one with
no connection and a player handle created immediately at queue creation
(not at first connection); across every event the player of a surviving
entry never changes, and every play action uses the player handle of the
guild entry it plays for. -/
theorem getOrCreate_and_player_stability (S : BotState) (hS : Reachable S) :
    (∀ g q, S.queues g = some q → getOrCreate g S = (q, S, []))
    ∧ (∀ g, S.queues g = none →
        getOrCreate g S =
          ({ songs := [], player := S.nextPlayer, connection := none },
           { queues := mapSet S.queues g
               (some { songs := [], player := S.nextPlayer, connection := none }),
             nextPlayer := S.nextPlayer + 1 },
           [Effect.createPlayer S.nextPlayer]))
    ∧ (∀ e q q2, S.queues (eventGuild e) = some q →
        (step e S).1.queues (eventGuild e) = some q2 → q2.player = q.player)
    ∧ (∀ e pid url, Effect.play pid url ∈ (step e S).2 →
        ∃ q2, (step e S).1.queues (eventGuild e) = some q2 ∧ q2.player = pid) := by
  have hInv := reachable_inv hS
  refine ⟨?_, ?_, ?_, ?_⟩
  · intro g q hq
    simp [getOrCreate, hq]
  · intro g hq
    simp [getOrCreate, hq]
  · intro e q q2 hq hq2
    cases e with
    | playCmd req env =>
      simp only [eventGuild] at hq hq2
      rcases execute_cases req env S hInv with h | h | h | h | h | h | h | h | h
      · simp only [step, h] at hq2
        rw [hq] at hq2
        cases hq2
        rfl
      · simp only [step, h] at hq2
        rw [hq] at hq2
        cases hq2
        rfl
      · simp only [step, h] at hq2
        rw [hq] at hq2
        cases hq2
        rfl
      · simp only [step, h] at hq2
        rw [hq] at hq2
        cases hq2
        rfl
      · simp only [step, h] at hq2
        rw [hq] at hq2
        cases hq2
        rfl
      · simp only [step, h] at hq2
        rw [hq] at hq2
        cases hq2
        rfl
      · obtain ⟨s, qq, cc, hrr, hqq, hcc, hss, heq⟩ := h
        rw [hq] at hqq
        cases hqq
        simp only [step, heq, mapSet_self] at hq2
        cases hq2
        rfl
      · obtain ⟨s, hrr, hqq, hcoo, heq⟩ := h
        rw [hq] at hqq
        cases hqq
      · obtain ⟨s, hrr, hqq, hcoo, heq⟩ := h
        rw [hq] at hqq
        cases hqq
    | idle g2 env =>
      simp only [eventGuild] at hq hq2
      rcases onIdle_cases env g2 S hInv with ⟨hqn, heq⟩ | ⟨qq, cc, hqq, hcc, htt, heq⟩ |
        ⟨qq, cc, hqq, hcc, htt, heq⟩
      · rw [hq] at hqn
        cases hqn
      · rw [hq] at hqq
        cases hqq
        simp only [step, heq, mapSet_self] at hq2
        cases hq2
        rfl
      · simp only [step, heq, mapSet_self] at hq2
        exact Option.noConfusion hq2
    | playerError g2 env =>
      simp only [eventGuild] at hq hq2
      rcases onError_cases env g2 S hInv with ⟨hqn, heq⟩ | ⟨qq, cc, hqq, hcc, heq⟩
      · simp only [step, heq] at hq2
        rw [hq] at hq2
        cases hq2
        rfl
      · simp only [step, heq, mapSet_self] at hq2
        exact Option.noConfusion hq2
  · intro e pid url hmem
    cases e with
    | playCmd req env =>
      simp only [eventGuild]
      rcases execute_cases req env S hInv with h | h | h | h | h | h | h | h | h
      · simp only [step, h] at hmem
        simp at hmem
      · simp only [step, h] at hmem
        simp at hmem
      · simp only [step, h] at hmem
        simp at hmem
      · simp only [step, h] at hmem
        simp at hmem
      · simp only [step, h] at hmem
        simp at hmem
      · simp only [step, h] at hmem
        cases he : env.editOk <;> simp [logIf, he] at hmem
      · obtain ⟨s, qq, cc, hrr, hqq, hcc, hss, heq⟩ := h
        simp only [step, heq] at hmem
        cases he : env.editOk <;> simp [logIf, he] at hmem
      · obtain ⟨s, hrr, hqq, hcoo, heq⟩ := h
        simp only [step, heq] at hmem
        rw [List.mem_append] at hmem
        rcases hmem with hmem | hmem
        · simp at hmem
        · have hpid := playSong_play_player env _ pid url hmem
          refine ⟨_, ?_, hpid.symm⟩
          simp only [step, heq, mapSet_self]
      · obtain ⟨s, hrr, hqq, hcoo, heq⟩ := h
        simp only [step, heq] at hmem
        simp at hmem
    | idle g2 env =>
      simp only [eventGuild]
      rcases onIdle_cases env g2 S hInv with ⟨hqn, heq⟩ | ⟨qq, cc, hqq, hcc, htt, heq⟩ |
        ⟨qq, cc, hqq, hcc, htt, heq⟩
      · simp only [step, heq] at hmem
        simp at hmem
      · simp only [step, heq] at hmem
        have hpid := playSong_play_player env _ pid url hmem
        refine ⟨_, ?_, hpid.symm⟩
        simp only [step, heq, mapSet_self]
      · simp only [step, heq] at hmem
        simp at hmem
    | playerError g2 env =>
      simp only [eventGuild]
      rcases onError_cases env g2 S hInv with ⟨hqn, heq⟩ | ⟨qq, cc, hqq, hcc, heq⟩
      · simp only [step, heq] at hmem
        simp at hmem
      · simp only [step, heq] at hmem
        cases hf : env.followOk <;> simp [logIf, hf] at hmem

theorem getOrCreate_and_player_stability_witness :
    getOrCreate "g" SA =
      ({ songs := [songA], player := 0, connection := some { channelId := "ch" } }, SA, [])
    ∧ (∃ q2, (step (Event.idle "g" idleEnv) SAB).1.queues "g" = some q2
        ∧ q2.player = 0) := by
  refine ⟨?_, ?_⟩
  · exact (getOrCreate_and_player_stability SA reachable_SA).1 "g" _ (by decide)
  · have h4 := (getOrCreate_and_player_stability SAB reachable_SAB).2.2.2
      (Event.idle "g" idleEnv) 0 songB.url
    have hmem : Effect.play 0 songB.url ∈ (step (Event.idle "g" idleEnv) SAB).2 := by
      decide
    exact h4 hmem

/-- Claim C7: an enqueue that finds a live entry for the guild (a live
entry always holds a connection) attempts no connection, establishes none
and registers no handlers; a first successful enqueue (no entry yet, all
collaborators succeeding) establishes exactly one connection and exactly
one handler registration; idle and error signals never create connections
or registrations. -/
theorem single_connection_and_subscription (S : BotState) (hS : Reachable S) :
    (∀ req env q, S.queues req.guildId = some q →
        ((execute req env S).2.2.filter Effect.isConnectAttempt).length = 0
        ∧ ((execute req env S).2.2.filter Effect.isConnected).length = 0
        ∧ ((execute req env S).2.2.filter Effect.isRegister).length = 0)
    ∧ (∀ req env s, S.queues req.guildId = none → req.inGuild = true →
        (req.channelProvided && req.channelIsVoice) = true →
        (req.hasConnectPerm && req.hasSpeakPerm) = true →
        env.deferOk = true → env.validURL = true → env.resolved = some s →
        env.connectOk = true →
        ((execute req env S).2.2.filter Effect.isConnected).length = 1
        ∧ ((execute req env S).2.2.filter Effect.isRegister).length = 1)
    ∧ (∀ g env,
        ((onIdle env g S).2.filter Effect.isConnected).length = 0
        ∧ ((onIdle env g S).2.filter Effect.isRegister).length = 0
        ∧ ((onError env g S).2.filter Effect.isConnected).length = 0
        ∧ ((onError env g S).2.filter Effect.isRegister).length = 0) := by
  have hInv := reachable_inv hS
  refine ⟨?_, ?_, ?_⟩
  · intro req env q hq
    rcases execute_cases req env S hInv with h | h | h | h | h | h | h | h | h
    · rw [h]
      simp [Effect.isConnectAttempt, Effect.isConnected, Effect.isRegister]
    · rw [h]
      simp [Effect.isConnectAttempt, Effect.isConnected, Effect.isRegister]
    · rw [h]
      simp [Effect.isConnectAttempt, Effect.isConnected, Effect.isRegister]
    · rw [h]
      simp [Effect.isConnectAttempt, Effect.isConnected, Effect.isRegister]
    · rw [h]
      simp [Effect.isConnectAttempt, Effect.isConnected, Effect.isRegister]
    · rw [h]
      cases he : env.editOk <;>
        simp [logIf, he, Effect.isConnectAttempt, Effect.isConnected, Effect.isRegister]
    · obtain ⟨s, qq, cc, hrr, hqq, hcc, hss, heq⟩ := h
      rw [heq]
      cases he : env.editOk <;>
        simp [logIf, he, Effect.isConnectAttempt, Effect.isConnected, Effect.isRegister]
    · obtain ⟨s, hrr, hqq, hcoo, heq⟩ := h
      rw [hq] at hqq
      exact Option.noConfusion hqq
    · obtain ⟨s, hrr, hqq, hcoo, heq⟩ := h
      rw [hq] at hqq
      exact Option.noConfusion hqq
  · intro req env s hq hg h2 h3 hd hv hr hco
    rw [execute_fresh_ok req env S s hg h2 h3 hd hv hr hq hco]
    dsimp only
    obtain ⟨hp1, hp2, hp3⟩ := playSong_no_conn env
      { songs := [s], player := S.nextPlayer,
        connection := some { channelId := req.channelId } }
    constructor
    · rw [List.filter_append, List.length_append, hp2]
      simp [Effect.isConnected]
    · rw [List.filter_append, List.length_append, hp3]
      simp [Effect.isRegister]
  · intro g env
    have hidle : ((onIdle env g S).2.filter Effect.isConnected).length = 0
        ∧ ((onIdle env g S).2.filter Effect.isRegister).length = 0 := by
      rcases onIdle_cases env g S hInv with ⟨hqn, heq⟩ | ⟨qq, cc, hqq, hcc, htt, heq⟩ |
        ⟨qq, cc, hqq, hcc, htt, heq⟩
      · rw [heq]
        simp
      · rw [heq]
        dsimp only
        obtain ⟨hp1, hp2, hp3⟩ := playSong_no_conn env
          { songs := qq.songs.tail, player := qq.player, connection := qq.connection }
        exact ⟨hp2, hp3⟩
      · rw [heq]
        simp [Effect.isConnected, Effect.isRegister]
    have herr : ((onError env g S).2.filter Effect.isConnected).length = 0
        ∧ ((onError env g S).2.filter Effect.isRegister).length = 0 := by
      rcases onError_cases env g S hInv with ⟨hqn, heq⟩ | ⟨qq, cc, hqq, hcc, heq⟩
      · rw [heq]
        simp
      · rw [heq]
        cases hf : env.followOk <;>
          simp [logIf, hf, Effect.isConnected, Effect.isRegister]
    exact ⟨hidle.1, hidle.2, herr.1, herr.2⟩

theorem single_connection_and_subscription_witness :
    ((execute (mkReq "g" "ch2") (okEnv songB) SA).2.2.filter Effect.isConnected).length = 0
    ∧ ((execute (mkReq "g" "ch") (okEnv songA) S0).2.2.filter
        Effect.isConnected).length = 1
    ∧ ((execute (mkReq "g" "ch") (okEnv songA) S0).2.2.filter
        Effect.isRegister).length = 1 := by
  have ha := ((single_connection_and_subscription SA reachable_SA).1 (mkReq "g" "ch2")
    (okEnv songB)
    { songs := [songA], player := 0, connection := some { channelId := "ch" } }
    (by decide)).2.1
  have hb := (single_connection_and_subscription S0 Reachable.base).2.1 (mkReq "g" "ch")
    (okEnv songA) songA rfl rfl rfl rfl rfl rfl rfl rfl
  exact ⟨ha, hb.1, hb.2⟩

/-- Claim C9: an enqueue on a guild with a live entry never attempts a new
connection and leaves the stored connection handle (hence its channel)
unchanged even when the request names a different channel, and every now
playing notification emitted by any event carries the title of the head
song of the entry and the channel id the entry connection is actually
bound to. -/
theorem now_playing_reports_connection_channel (S : BotState) (hS : Reachable S) :
    (∀ req env q, S.queues req.guildId = some q →
        ((execute req env S).2.2.filter Effect.isConnectAttempt).length = 0
        ∧ (∀ q2, (execute req env S).1.queues req.guildId = some q2 →
            q2.connection = q.connection))
    ∧ (∀ e t ch, Effect.notifyNowPlaying t ch ∈ (step e S).2 →
        ∃ q2, (step e S).1.queues (eventGuild e) = some q2
          ∧ q2.connection = some { channelId := ch }
          ∧ ∃ s2, q2.songs.head? = some s2 ∧ s2.title = t) := by
  have hInv := reachable_inv hS
  constructor
  · intro req env q hq
    rcases execute_cases req env S hInv with h | h | h | h | h | h | h | h | h
    · rw [h]
      refine ⟨by simp [Effect.isConnectAttempt], ?_⟩
      intro q2 hq2
      rw [hq] at hq2
      cases hq2
      rfl
    · rw [h]
      refine ⟨by simp [Effect.isConnectAttempt], ?_⟩
      intro q2 hq2
      rw [hq] at hq2
      cases hq2
      rfl
    · rw [h]
      refine ⟨by simp [Effect.isConnectAttempt], ?_⟩
      intro q2 hq2
      rw [hq] at hq2
      cases hq2
      rfl
    · rw [h]
      refine ⟨by simp [Effect.isConnectAttempt], ?_⟩
      intro q2 hq2
      rw [hq] at hq2
      cases hq2
      rfl
    · rw [h]
      refine ⟨by simp [Effect.isConnectAttempt], ?_⟩
      intro q2 hq2
      rw [hq] at hq2
      cases hq2
      rfl
    · rw [h]
      refine ⟨?_, ?_⟩
      · cases he : env.editOk <;> simp [logIf, he, Effect.isConnectAttempt]
      · intro q2 hq2
        rw [hq] at hq2
        cases hq2
        rfl
    · obtain ⟨s, qq, cc, hrr, hqq, hcc, hss, heq⟩ := h
      rw [hq] at hqq
      cases hqq
      rw [heq]
      refine ⟨?_, ?_⟩
      · cases he : env.editOk <;> simp [logIf, he, Effect.isConnectAttempt]
      · intro q2 hq2
        simp only [mapSet_self] at hq2
        cases hq2
        rw [hcc]
    · obtain ⟨s, hrr, hqq, hcoo, heq⟩ := h
      rw [hq] at hqq
      exact Option.noConfusion hqq
    · obtain ⟨s, hrr, hqq, hcoo, heq⟩ := h
      rw [hq] at hqq
      exact Option.noConfusion hqq
  · intro e t ch hmem
    cases e with
    | playCmd req env =>
      simp only [eventGuild]
      rcases execute_cases req env S hInv with h | h | h | h | h | h | h | h | h
      · simp only [step, h] at hmem
        simp at hmem
      · simp only [step, h] at hmem
        simp at hmem
      · simp only [step, h] at hmem
        simp at hmem
      · simp only [step, h] at hmem
        simp at hmem
      · simp only [step, h] at hmem
        simp at hmem
      · simp only [step, h] at hmem
        cases he : env.editOk <;> simp [logIf, he] at hmem
      · obtain ⟨s, qq, cc, hrr, hqq, hcc, hss, heq⟩ := h
        simp only [step, heq] at hmem
        cases he : env.editOk <;> simp [logIf, he] at hmem
      · obtain ⟨s, hrr, hqq, hcoo, heq⟩ := h
        simp only [step, heq] at hmem
        rw [List.mem_append] at hmem
        rcases hmem with hmem | hmem
        · simp at hmem
        · obtain ⟨c, s2, hcon, hch, hhead, hti⟩ := playSong_notify env _ t ch hmem
          have hc2 : c = { channelId := req.channelId } := (Option.some.inj hcon).symm
          refine ⟨_, ?_, ?_, ⟨s2, hhead, hti.symm⟩⟩
          · simp only [step, heq, mapSet_self]
          · rw [hch, hc2]
      · obtain ⟨s, hrr, hqq, hcoo, heq⟩ := h
        simp only [step, heq] at hmem
        simp at hmem
    | idle g2 env =>
      simp only [eventGuild]
      rcases onIdle_cases env g2 S hInv with ⟨hqn, heq⟩ | ⟨qq, cc, hqq, hcc, htt, heq⟩ |
        ⟨qq, cc, hqq, hcc, htt, heq⟩
      · simp only [step, heq] at hmem
        simp at hmem
      · simp only [step, heq] at hmem
        obtain ⟨c, s2, hcon, hch, hhead, hti⟩ := playSong_notify env _ t ch hmem
        refine ⟨_, ?_, ?_, ⟨s2, hhead, hti.symm⟩⟩
        · simp only [step, heq, mapSet_self]
        · rw [hcon, hch]
      · simp only [step, heq] at hmem
        simp at hmem
    | playerError g2 env =>
      simp only [eventGuild]
      rcases onError_cases env g2 S hInv with ⟨hqn, heq⟩ | ⟨qq, cc, hqq, hcc, heq⟩
      · simp only [step, heq] at hmem
        simp at hmem
      · simp only [step, heq] at hmem
        cases hf : env.followOk <;> simp [logIf, hf] at hmem

theorem now_playing_reports_connection_channel_witness :
    ((execute (mkReq "g" "ch2") (okEnv songB) SA).2.2.filter
      Effect.isConnectAttempt).length = 0
    ∧ (∀ q2, (execute (mkReq "g" "ch2") (okEnv songB) SA).1.queues "g" = some q2 →
        q2.connection = some { channelId := "ch" })
    ∧ (∃ q2, (step (Event.idle "g" idleEnv) SAB).1.queues "g" = some q2
        ∧ q2.connection = some { channelId := "ch" }
        ∧ ∃ s2, q2.songs.head? = some s2 ∧ s2.title = "B") := by
  have h1 := (now_playing_reports_connection_channel SA reachable_SA).1 (mkReq "g" "ch2")
    (okEnv songB)
    { songs := [songA], player := 0, connection := some { channelId := "ch" } }
    (by decide)
  refine ⟨h1.1, ?_, ?_⟩
  · intro q2 hq2
    exact h1.2 q2 hq2
  · exact (now_playing_reports_connection_channel SAB reachable_SAB).2
      (Event.idle "g" idleEnv) "B" "ch" (by decide)

/-- Claim C1: for every admissible single guild history of successful
enqueues and idle signals starting from the empty state, the number of
finished songs never exceeds the number of arrivals; while undrained the
guild entry holds exactly the suffix of the arrivals not yet finished, in
arrival order, with a live connection; the urls handed to the player are
exactly the arrivals in FIFO order, one at a time, the next one starting
only on an idle signal; and the moment the idle signal for the last song
fires the entry is gone from the map and that very step destroys the
connection. -/
theorem fifo_playback_and_teardown (h : List GEvent)
    (ha : admissibleFrom S0 h = true) :
    (idles h ≤ (arrivals h).length
      ∧ (idles h < (arrivals h).length → ∃ pid,
          (runG S0 h).1.queues "g" =
            some { songs := (arrivals h).drop (idles h), player := pid,
                   connection := some { channelId := "ch" } })
      ∧ (idles h = (arrivals h).length → (runG S0 h).1.queues "g" = none)
      ∧ playUrls (runG S0 h).2 =
          ((arrivals h).map Song.url).take (min (idles h + 1) (arrivals h).length))
    ∧ (∀ t, h = t ++ [GEvent.idle] → idles h = (arrivals h).length →
        (gstep GEvent.idle (runG S0 t).1).2 = [Effect.destroyConn "g" "ch"]) := by
  refine ⟨c1_core h ha, ?_⟩
  intro t hts hk
  subst hts
  rw [admissible_append, Bool.and_eq_true] at ha
  obtain ⟨hat, hcond⟩ := ha
  have hcond2 : ((runG S0 t).1.queues "g").isSome = true := hcond
  obtain ⟨ih1, ih2, ih3, ih4⟩ := c1_core t hat
  rw [arrivals_append, idles_append, arrivals_idle, idles_idle, List.append_nil] at hk
  have hlt : idles t < (arrivals t).length := by
    by_contra hge
    have hkk : idles t = (arrivals t).length := by omega
    rw [ih3 hkk] at hcond2
    simp at hcond2
  obtain ⟨pid, hent⟩ := ih2 hlt
  have hd1 : (arrivals t).drop (idles t) =
      (arrivals t)[idles t] :: (arrivals t).drop (idles t + 1) :=
    List.drop_eq_getElem_cons hlt
  have hd3 : (arrivals t).drop (idles t + 1) = [] := by
    rw [List.drop_eq_nil_iff]
    omega
  rw [hd1, hd3] at hent
  rw [gstep_idle_drain _ pid _ _ hent]

theorem fifo_playback_and_teardown_witness :
    admissibleFrom S0 histAB = true
    ∧ playUrls (runG S0 histAB).2 =
        ((arrivals histAB).map Song.url).take
          (min (idles histAB + 1) (arrivals histAB).length)
    ∧ (runG S0 histAB).1.queues "g" = none := by
  have h := fifo_playback_and_teardown histAB (by decide)
  exact ⟨by decide, h.1.2.2.2, h.1.2.2.1 (by decide)⟩

end Strive
